import Mathlib

/-!
Shallow embedding of the chat application's backend request handlers
(convex/chatStreaming.ts, convex/threads.ts, convex/schema.ts) and of the
client-side attachment-matching (ChatContent.tsx) and thread-grouping
(ChatSidebar.tsx) logic, together with theorems settling the stated
properties of the system.

Convex mutations are transactional: a handler that throws commits nothing.
Handlers are therefore embedded as functions from an explicit database
state to `Except Err` of the new state; an `Except.error` result models a
thrown error with every write rolled back.  Scheduled background work
(`ctx.scheduler.runAfter`) is modelled as a queue of task records inside
the state.  Environment-supplied values (the authenticated identity,
`Date.now()`, freshly generated ids, and the agent-thread id returned by
the external agent library) are passed as explicit parameters.
-/

namespace ChatApp

/-- Identifier of a row of the local `threads` table (`Id<"threads">`). -/
abbrev ThreadId := Nat

/-- Convex `_storage` file identifier (`Id<"_storage">`). -/
abbrev StorageId := Nat

/-- A row of the `threads` table as declared in convex/schema.ts:
`userId`, optional `uuid`, optional `agentThreadId`, optional `title`,
optional `status`, `createdAt`, `updatedAt` (the optional `summary` field
is never read or written by the handlers and is omitted). -/
structure ThreadRec where
  userId : String
  uuid : Option String
  agentThreadId : Option String
  title : Option String
  status : Option String
  createdAt : Nat
  updatedAt : Nat
deriving DecidableEq, Repr

/-- A row of the local `messages` table (convex/schema.ts): the
attachment-association record with `threadId`, `body`, `userId` and the
attachment storage ids.  `creationTime` models the system `_creationTime`
column. -/
structure MessageRec where
  threadId : ThreadId
  body : String
  userId : String
  attachments : List StorageId
  creationTime : Nat
deriving DecidableEq, Repr

/-- The argument record of the scheduled background action
`internal.chatStreaming.createAgentThreadAndSaveMessage`. -/
structure SendTask where
  threadId : ThreadId
  prompt : String
  userId : String
  modelId : String
  attachmentIds : List StorageId
deriving DecidableEq, Repr

/-- The database state visible to the handlers: the `threads` table, the
local `messages` table, and the queue of scheduled background tasks. -/
structure DB where
  threads : List (ThreadId × ThreadRec)
  messages : List MessageRec
  scheduled : List SendTask
deriving DecidableEq, Repr

/-- The errors thrown by the handlers: "Not authenticated",
"Unauthorized", Zod validation failures, and "Local thread not found". -/
inductive Err where
  | notAuthenticated
  | unauthorized
  | validation (msg : String)
  | notFound (msg : String)
deriving DecidableEq, Repr

/-- PromptSchema = z.string().min(1, "Prompt cannot be empty"): the parse
succeeds exactly when the string has length at least 1; no trimming is
performed. -/
def parsePrompt (p : String) : Except Err String :=
  if 1 ≤ p.length then .ok p else .error (.validation "Prompt cannot be empty")

/-- The recognized model identifiers: the values of the runtime zod enum
ModelId in convex/config/models.ts, the validator the handlers call as
ModelId.parse. -/
def recognizedModelIds : List String :=
  ["gpt-4.1", "gpt-4.1-nano", "claude-4-sonnet-20250514",
   "gemini-2.5-pro-preview-06-05", "gemini-2.5-flash-preview-05-20"]

/-- ModelId.parse: succeeds exactly on the recognized model ids. -/
def parseModelId (m : String) : Except Err String :=
  if recognizedModelIds.contains m then .ok m
  else .error (.validation "Invalid model id")

/-- getUserId: throws "Not authenticated" when no identity is present,
otherwise returns the identity's subject. -/
def getUserId (auth : Option String) : Except Err String :=
  match auth with
  | none => .error .notAuthenticated
  | some u => .ok u

/-- ctx.db.get on the `threads` table (also the `_id` filter used by
getLocalThread). -/
def getThread (db : DB) (tid : ThreadId) : Option ThreadRec :=
  (db.threads.find? (fun e => e.1 == tid)).map (·.2)

/-- authorizeThreadAccess: resolves the identity, loads the thread, and
throws "Unauthorized" when the thread is missing or owned by another
user. -/
def authorizeThreadAccess (db : DB) (auth : Option String) (tid : ThreadId) :
    Except Err Unit := do
  let userId ← getUserId auth
  match getThread db tid with
  | none => .error .unauthorized
  | some t => if t.userId = userId then .ok () else .error .unauthorized

/-- ctx.db.patch on the `threads` table. -/
def patchThread (db : DB) (tid : ThreadId) (f : ThreadRec → ThreadRec) : DB :=
  { db with threads := db.threads.map (fun e => if e.1 == tid then (e.1, f e.2) else e) }

/-- sendMessage (convex/chatStreaming.ts): validates the prompt and the
model id, authorizes thread access, resolves the user id, and schedules
the background action with those arguments.  The handler body contains no
return statement (the mutation's value is undefined) and performs no
write to the `threads` table. -/
def sendMessage (db : DB) (auth : Option String) (threadId : ThreadId)
    (prompt modelId : String) (attachmentIds : List StorageId) :
    Except Err DB := do
  let vp ← parsePrompt prompt
  let vm ← parseModelId modelId
  authorizeThreadAccess db auth threadId
  let userId ← getUserId auth
  .ok { db with scheduled := db.scheduled ++ [⟨threadId, vp, userId, vm, attachmentIds⟩] }

/-- JS string.substring(0, 47): the first 47 UTF-16 units, modelled as
the first 47 characters. -/
def jsSubstring47 (s : String) : String := String.mk (s.data.take 47)

/-- The title derivation shared by generateThreadTitle,
sendMessageAndUpdateThread and sendMessageWithModel: messages longer than
50 characters are truncated to their first 47 characters plus "...". -/
def mkTitle (m : String) : String :=
  if 50 < m.length then jsSubstring47 m ++ "..." else m

/-- sendMessageAndUpdateThread: validates, authorizes, schedules the
background action, then patches the thread; on the first message the
title is derived from the prompt, and `updatedAt` is set to Date.now()
in both branches. -/
def sendMessageAndUpdateThread (db : DB) (auth : Option String)
    (threadId : ThreadId) (prompt : String) (isFirstMessage : Bool)
    (modelId : String) (attachmentIds : List StorageId) (now : Nat) :
    Except Err DB := do
  let vp ← parsePrompt prompt
  let vm ← parseModelId modelId
  authorizeThreadAccess db auth threadId
  let userId ← getUserId auth
  let db1 := { db with scheduled := db.scheduled ++ [⟨threadId, vp, userId, vm, attachmentIds⟩] }
  if isFirstMessage then
    .ok (patchThread db1 threadId (fun t => { t with title := some (mkTitle vp), updatedAt := now }))
  else
    .ok (patchThread db1 threadId (fun t => { t with updatedAt := now }))

/-- sendMessageWithModel: like sendMessageAndUpdateThread but the
scheduled task carries no attachment ids (the action then defaults them
to the empty list). -/
def sendMessageWithModel (db : DB) (auth : Option String)
    (threadId : ThreadId) (prompt modelId : String)
    (isFirstMessage : Bool) (now : Nat) : Except Err DB := do
  let vp ← parsePrompt prompt
  let vm ← parseModelId modelId
  authorizeThreadAccess db auth threadId
  let userId ← getUserId auth
  let db1 := { db with scheduled := db.scheduled ++ [⟨threadId, vp, userId, vm, []⟩] }
  if isFirstMessage then
    .ok (patchThread db1 threadId (fun t => { t with title := some (mkTitle vp), updatedAt := now }))
  else
    .ok (patchThread db1 threadId (fun t => { t with updatedAt := now }))

/-- JS truthiness of an optional string: undefined and the empty string
are falsy. -/
def strFalsy (o : Option String) : Bool :=
  match o with
  | none => true
  | some s => s.isEmpty

/-- listThreadMessages: authorizes access, loads the thread, and returns
the empty page structure when the thread has no (truthy) agentThreadId;
otherwise it delegates to the external agent library.  The pagination and
stream payloads live in that library, so the embedding returns the agent
thread id that would be consulted (`none` for the empty structure). -/
def listThreadMessages (db : DB) (auth : Option String) (threadId : ThreadId) :
    Except Err (Option String) := do
  authorizeThreadAccess db auth threadId
  match getThread db threadId with
  | none => .ok none
  | some t => if strFalsy t.agentThreadId then .ok none else .ok t.agentThreadId

/-- createThread (convex/chatStreaming.ts): inserts a thread row with
title "New Chat", status "active", both timestamps set to Date.now(), a
fresh uuid, and no agentThreadId; the fresh row id and uuid are supplied
by the environment. -/
def createThread (db : DB) (auth : Option String) (now : Nat)
    (newId : ThreadId) (uuid : String) : Except Err (DB × ThreadId) := do
  let userId ← getUserId auth
  .ok ({ db with threads := db.threads ++
          [(newId, ⟨userId, some uuid, none, some "New Chat", some "active", now, now⟩)] },
       newId)

/-- generateThreadTitle: resolves the identity, throws "Unauthorized"
when the thread is missing or foreign, then patches the title (derived
from the first message) and `updatedAt`. -/
def generateThreadTitle (db : DB) (auth : Option String) (threadId : ThreadId)
    (firstMessage : String) (now : Nat) : Except Err DB := do
  let userId ← getUserId auth
  match getThread db threadId with
  | none => .error .unauthorized
  | some t =>
    if t.userId = userId then
      .ok (patchThread db threadId
            (fun tr => { tr with title := some (mkTitle firstMessage), updatedAt := now }))
    else .error .unauthorized

/-- updateThreadTitle (convex/threads.ts). -/
def updateThreadTitle (db : DB) (auth : Option String) (threadId : ThreadId)
    (title : String) (now : Nat) : Except Err DB := do
  let userId ← getUserId auth
  match getThread db threadId with
  | none => .error .unauthorized
  | some t =>
    if t.userId = userId then
      .ok (patchThread db threadId (fun tr => { tr with title := some title, updatedAt := now }))
    else .error .unauthorized

/-- updateThreadTimestamp (convex/threads.ts). -/
def updateThreadTimestamp (db : DB) (auth : Option String) (threadId : ThreadId)
    (now : Nat) : Except Err DB := do
  let userId ← getUserId auth
  match getThread db threadId with
  | none => .error .unauthorized
  | some t =>
    if t.userId = userId then
      .ok (patchThread db threadId (fun tr => { tr with updatedAt := now }))
    else .error .unauthorized

/-- deleteThread (convex/threads.ts): after the ownership check, deletes
every local message row of the thread and then the thread row itself. -/
def deleteThread (db : DB) (auth : Option String) (threadId : ThreadId) :
    Except Err DB := do
  let userId ← getUserId auth
  match getThread db threadId with
  | none => .error .unauthorized
  | some t =>
    if t.userId = userId then
      .ok { db with
            messages := db.messages.filter (fun msg => !(msg.threadId == threadId)),
            threads := db.threads.filter (fun e => !(e.1 == threadId)) }
    else .error .unauthorized

/-- getThreadByUuid (convex/threads.ts): scans only the caller's own
threads (the by_userId index), filters on the uuid, takes the first hit,
and re-checks ownership before returning; a miss returns null rather than
throwing. -/
def getThreadByUuid (db : DB) (auth : Option String) (uuid : String) :
    Except Err (Option ThreadRec) := do
  let me ← getUserId auth
  let mine := db.threads.filter (fun e => e.2.userId == me)
  match mine.find? (fun e => e.2.uuid == some uuid) with
  | none => .ok none
  | some e => if e.2.userId = me then .ok (some e.2) else .ok none

/-- createAgentThreadAndSaveMessage (the scheduled background action):
validates its arguments again, loads the local thread (throwing "Local
thread not found" on a miss), lazily creates the agent thread and patches
`agentThreadId` only when the stored value is falsy, inserts one local
messages row exactly when attachments are present, and finally streams
the model response through the external agent library.  The content-block
construction and the streaming call touch only the external library's
state, not the local database, so they do not appear in the embedding;
`newAgentThreadId` is the id the library would return from createThread.
-/
def createAgentThreadAndSaveMessage (db : DB) (task : SendTask)
    (newAgentThreadId : String) (now : Nat) : Except Err DB := do
  let vp ← parsePrompt task.prompt
  let _vm ← parseModelId task.modelId
  match getThread db task.threadId with
  | none => .error (.notFound "Local thread not found")
  | some localThread =>
    let db1 := if strFalsy localThread.agentThreadId then
        patchThread db task.threadId (fun t => { t with agentThreadId := some newAgentThreadId })
      else db
    let db2 := if task.attachmentIds.isEmpty then db1
      else { db1 with messages := db1.messages ++
              [⟨task.threadId, vp, task.userId, task.attachmentIds, now⟩] }
    .ok db2

/-- The `updatedAt` field of a thread row, for stating timestamp
properties. -/
def threadUpdatedAt (db : DB) (tid : ThreadId) : Option Nat :=
  (getThread db tid).map ThreadRec.updatedAt

/-! ### Attachment-to-message matching (ChatContent.tsx, MemoizedMessage) -/

/-- One entry of the getThreadAttachments payload handed to the message
renderer: the stored body, the attachment storage ids, and the row's
`_creationTime`. -/
structure AttachmentRec where
  messageBody : String
  attachments : List StorageId
  creationTime : Nat
deriving DecidableEq, Repr

/-- getThreadAttachments (convex/chatStreaming.ts): all local message
rows of the thread, projected to body, attachments and creation time. -/
def getThreadAttachments (db : DB) (tid : ThreadId) : List AttachmentRec :=
  (db.messages.filter (fun m => m.threadId == tid)).map
    (fun m => ⟨m.body, m.attachments, m.creationTime⟩)

/-- The fields of a rendered UI message that the matching reads: the
role, the content, and the `_creationTime`. -/
structure UIMessage where
  role : String
  content : String
  creationTime : Nat
deriving DecidableEq, Repr

/-- Whether the character list t occurs contiguously inside s. -/
def hasSubstr (s t : List Char) : Bool :=
  match s with
  | [] => t.isEmpty
  | _ :: rest => t.isPrefixOf s || hasSubstr rest t

/-- JS s.includes(t): t occurs as a contiguous substring of s. -/
def jsIncludes (s t : String) : Bool := hasSubstr s.data t.data

/-- The body-based test of the matching .find(): exact equality of the
stored body with the message content, or the message content containing
the stored body. -/
def bodyMatch (content : String) (att : AttachmentRec) : Bool :=
  att.messageBody == content || jsIncludes content att.messageBody

/-- JS Math.abs(a - b) on the two creation times. -/
def absDiff (a b : Nat) : Nat := max a b - min a b

/-- Insertion of an element into a list sorted by a numeric key, placing
it before the first element of key not smaller: with sortByKey below this
reproduces a stable ascending sort, which is what JS Array.prototype.sort
with the comparator (a, b) => key a - key b produces. -/
def insertByKey {α : Type} (k : α → Nat) (x : α) : List α → List α
  | [] => [x]
  | y :: ys => if k x ≤ k y then x :: y :: ys else y :: insertByKey k x ys

/-- Stable ascending sort by a numeric key, modelling the JS .sort with
comparator (a, b) => key a - key b. -/
def sortByKey {α : Type} (k : α → Nat) : List α → List α
  | [] => []
  | x :: xs => insertByKey k x (sortByKey k xs)

/-- The attachments useMemo of MemoizedMessage (ChatContent.tsx): returns
the storage ids rendered beneath one message.  Bails out with no
attachments when the association list is absent, the content is falsy, or
the message is not user-authored; otherwise takes the first association
record matching by body, and failing that (when the creation time is
truthy) sorts the records by absolute creation-time distance and accepts
the closest one only within a strict 5000 ms tolerance. -/
def extractAttachments (threadAttachments : Option (List AttachmentRec))
    (message : UIMessage) : List StorageId :=
  let isAssistant := message.role ≠ "user"
  match threadAttachments with
  | none => []
  | some atts =>
    if message.content = "" ∨ isAssistant then []
    else
      match atts.find? (bodyMatch message.content) with
      | some m => m.attachments
      | none =>
        if message.creationTime ≠ 0 then
          match (sortByKey (fun a => absDiff a.creationTime message.creationTime) atts).head? with
          | some closest =>
            if absDiff closest.creationTime message.creationTime < 5000 then
              closest.attachments
            else []
          | none => []
        else []

/-! ### Thread list time-bucket grouping (ChatSidebar.tsx) -/

/-- The fields of a sidebar thread that the grouping reads. -/
structure SThread where
  id : Nat
  title : Option String
  createdAt : Nat
  updatedAt : Nat
deriving DecidableEq, Repr

/-- The four ordered buckets produced by groupThreadsByTime. -/
structure GroupedThreads where
  today : List SThread
  last7Days : List SThread
  last30Days : List SThread
  older : List SThread
deriving DecidableEq, Repr

/-- Milliseconds in a day, as in 24 * 60 * 60 * 1000. -/
def msPerDay : Int := 24 * 60 * 60 * 1000

/-- The reduce callback of groupThreadsByTime (ChatSidebar.tsx): appends
the thread to the bucket of the first boundary its updatedAt clears. -/
def groupStep (todayStart : Int) (groups : GroupedThreads) (thread : SThread) :
    GroupedThreads :=
  if (thread.updatedAt : Int) ≥ todayStart then
    { groups with today := groups.today ++ [thread] }
  else if (thread.updatedAt : Int) ≥ todayStart - 7 * msPerDay then
    { groups with last7Days := groups.last7Days ++ [thread] }
  else if (thread.updatedAt : Int) ≥ todayStart - 30 * msPerDay then
    { groups with last30Days := groups.last30Days ++ [thread] }
  else
    { groups with older := groups.older ++ [thread] }

/-- groupThreadsByTime (ChatSidebar.tsx): partitions the thread list into
Today / Last 7 days / Last 30 days / Older by comparing each thread's
updatedAt against the local-midnight anchor and its 7- and 30-day
offsets.  `todayStart` is the value of
new Date(now.getFullYear(), now.getMonth(), now.getDate()).getTime(),
i.e. the local midnight computed from the render-time clock; it is
passed explicitly because it depends on the environment's time zone. -/
def groupThreadsByTime (todayStart : Int) (threads : List SThread) :
    GroupedThreads :=
  threads.foldl (groupStep todayStart) ⟨[], [], [], []⟩

/-- The index of the bucket a thread with the given updatedAt lands in,
for the fixed todayStart anchor. -/
def bucketIndex (todayStart : Int) (u : Nat) : Nat :=
  if (u : Int) ≥ todayStart then 0
  else if (u : Int) ≥ todayStart - 7 * msPerDay then 1
  else if (u : Int) ≥ todayStart - 30 * msPerDay then 2
  else 3

/-- The bucket of a GroupedThreads value selected by index, in display
order Today, Last 7 days, Last 30 days, Older. -/
def GroupedThreads.bucket (g : GroupedThreads) : Nat → List SThread
  | 0 => g.today
  | 1 => g.last7Days
  | 2 => g.last30Days
  | 3 => g.older
  | _ => []

/-! ### Concrete states used by witnesses and counterexamples -/

/-- A thread owned by "alice" with both timestamps equal to 100 and no
agent-thread linkage yet. -/
def exThread : ThreadRec :=
  ⟨"alice", some "uuid-1", none, some "New Chat", some "active", 100, 100⟩

/-- A one-thread database with no local messages and an empty task
queue. -/
def exDb : DB := ⟨[(1, exThread)], [], []⟩

/-- exDb after a send of "Hello" has been scheduled. -/
def exDbAfter : DB :=
  { exDb with scheduled := [⟨1, "Hello", "alice", "gpt-4.1-nano", []⟩] }

/-- A thread owned by "alice" whose agent-thread linkage is already set
to "agent-1". -/
def exThreadLinked : ThreadRec :=
  ⟨"alice", some "uuid-1", some "agent-1", some "New Chat", some "active", 100, 100⟩

/-- A one-thread database whose thread already carries the linkage. -/
def exDbLinked : DB := ⟨[(1, exThreadLinked)], [], []⟩

end ChatApp

deriving instance DecidableEq for Except

namespace ChatApp

/-! ### C1: what a valid sendMessage call does -/

/-- C1 (amended): for a valid prompt, a recognized model id and a caller
who owns the thread, sendMessage succeeds and its whole effect is to
append one background-generation task to the queue: the threads table —
and so the thread's updatedAt — is untouched, and nothing (in particular
no message identifier) is returned. -/
theorem sendMessage_valid_call_schedules_task
    (db : DB) (u : String) (tid : ThreadId) (t : ThreadRec)
    (p m : String) (ids : List StorageId)
    (ht : getThread db tid = some t) (hu : t.userId = u)
    (hp : 1 ≤ p.length) (hm : recognizedModelIds.contains m = true) :
    sendMessage db (some u) tid p m ids =
      .ok { db with scheduled := db.scheduled ++ [⟨tid, p, u, m, ids⟩] } := by
  have hm' : m ∈ recognizedModelIds := by simpa using hm
  simp [sendMessage, parsePrompt, parseModelId, authorizeThreadAccess, getUserId,
        Bind.bind, Except.bind, hp, hm', ht, hu]

/-- Witness for sendMessage_valid_call_schedules_task at a concrete
state. -/
theorem sendMessage_valid_call_schedules_task_witness :
    sendMessage exDb (some "alice") 1 "Hello" "gpt-4.1-nano" [] =
      .ok { exDb with scheduled := exDb.scheduled ++ [⟨1, "Hello", "alice", "gpt-4.1-nano", []⟩] } :=
  sendMessage_valid_call_schedules_task exDb "alice" 1 exThread "Hello" "gpt-4.1-nano" []
    (by decide) rfl (by decide) (by decide)

/-- C1 (counterexample): a fully valid send by the thread's owner
succeeds, yet the thread's last-update timestamp afterwards equals the
one before (100 = 100), refuting the claimed strict increase; the
mutation also produces no message identifier, only the scheduled-task
side effect recorded in the state. -/
theorem sendMessage_updatedAt_not_increased :
    sendMessage exDb (some "alice") 1 "Hello" "gpt-4.1-nano" [] = .ok exDbAfter ∧
    threadUpdatedAt exDbAfter 1 = some 100 ∧
    threadUpdatedAt exDb 1 = some 100 := by decide

/-! ### C2: prompt validation -/

/-- C2 (amended): the empty prompt is rejected by the zod schema before
any other step, so the mutation throws the validation error and — the
mutation being transactional — leaves the state unchanged with no task
scheduled. -/
theorem sendMessage_rejects_empty_prompt
    (db : DB) (auth : Option String) (tid : ThreadId) (m : String)
    (ids : List StorageId) :
    sendMessage db auth tid "" m ids =
      .error (.validation "Prompt cannot be empty") := rfl

/-- C2 (counterexample): a whitespace-only prompt (a single space) has
length 1, passes the untrimmed min-length-1 validation, and the send
succeeds and schedules the background task — refuting the claim that all
whitespace-only prompts fail with a validation error. -/
theorem sendMessage_accepts_whitespace_prompt :
    sendMessage exDb (some "alice") 1 " " "gpt-4.1-nano" [] =
      .ok { exDb with scheduled := [⟨1, " ", "alice", "gpt-4.1-nano", []⟩] } := by decide

/-! ### C5: unauthorized access throws everywhere -/

/-- C5: every operation that takes a threadId — the three send variants,
listThreadMessages, generateThreadTitle, deleteThread, updateThreadTitle
and updateThreadTimestamp — throws "Unauthorized" when the authenticated
caller does not own the referenced thread; since a thrown mutation
commits nothing, no operation silently succeeds as a no-op.  The send
variants validate the prompt and model id before the ownership check, so
those inputs are assumed valid here. -/
theorem unauthorized_thread_ops_throw
    (db : DB) (caller : String) (tid : ThreadId) (t : ThreadRec)
    (p m title2 : String) (ids : List StorageId) (first : Bool) (now : Nat)
    (ht : getThread db tid = some t) (hne : t.userId ≠ caller)
    (hp : 1 ≤ p.length) (hm : recognizedModelIds.contains m = true) :
    sendMessage db (some caller) tid p m ids = .error .unauthorized ∧
    sendMessageAndUpdateThread db (some caller) tid p first m ids now = .error .unauthorized ∧
    sendMessageWithModel db (some caller) tid p m first now = .error .unauthorized ∧
    listThreadMessages db (some caller) tid = .error .unauthorized ∧
    generateThreadTitle db (some caller) tid p now = .error .unauthorized ∧
    deleteThread db (some caller) tid = .error .unauthorized ∧
    updateThreadTitle db (some caller) tid title2 now = .error .unauthorized ∧
    updateThreadTimestamp db (some caller) tid now = .error .unauthorized := by
  have hm' : m ∈ recognizedModelIds := by simpa using hm
  refine ⟨?_, ?_, ?_, ?_, ?_, ?_, ?_, ?_⟩ <;>
    simp [sendMessage, sendMessageAndUpdateThread, sendMessageWithModel,
          listThreadMessages, generateThreadTitle, deleteThread,
          updateThreadTitle, updateThreadTimestamp,
          parsePrompt, parseModelId, authorizeThreadAccess, getUserId,
          Bind.bind, Except.bind, hp, hm', ht, hne]

/-- Witness for unauthorized_thread_ops_throw: "bob" rejected on
alice's thread. -/
theorem unauthorized_thread_ops_throw_witness :
    sendMessage exDb (some "bob") 1 "Hello" "gpt-4.1-nano" [] = .error .unauthorized ∧
    sendMessageAndUpdateThread exDb (some "bob") 1 "Hello" true "gpt-4.1-nano" [] 200 = .error .unauthorized ∧
    sendMessageWithModel exDb (some "bob") 1 "Hello" "gpt-4.1-nano" true 200 = .error .unauthorized ∧
    listThreadMessages exDb (some "bob") 1 = .error .unauthorized ∧
    generateThreadTitle exDb (some "bob") 1 "Hello" 200 = .error .unauthorized ∧
    deleteThread exDb (some "bob") 1 = .error .unauthorized ∧
    updateThreadTitle exDb (some "bob") 1 "Title" 200 = .error .unauthorized ∧
    updateThreadTimestamp exDb (some "bob") 1 200 = .error .unauthorized :=
  unauthorized_thread_ops_throw exDb "bob" 1 exThread "Hello" "gpt-4.1-nano" "Title" [] true 200
    (by decide) (by decide) (by decide) (by decide)

/-! ### Helper lemmas about patching -/

/-- Looking up the patched row after a patch of the same id. -/
theorem find?_patch (l : List (ThreadId × ThreadRec)) (tid : ThreadId)
    (f : ThreadRec → ThreadRec) :
    (((l.map (fun e => if e.1 == tid then (e.1, f e.2) else e)).find?
        (fun e => e.1 == tid)).map (·.2))
      = ((l.find? (fun e => e.1 == tid)).map (·.2)).map f := by
  induction l with
  | nil => rfl
  | cons hd tl ih =>
    simp only [List.map_cons]
    by_cases h : hd.1 = tid
    · have hb : (hd.1 == tid) = true := by simpa using h
      rw [@List.find?_cons_of_pos (ThreadId × ThreadRec) (fun e => e.1 == tid) _ _ (by simp [hb]),
          @List.find?_cons_of_pos (ThreadId × ThreadRec) (fun e => e.1 == tid) hd tl hb]
      simp [hb]
    · have hb : (hd.1 == tid) = false := by simpa using h
      rw [@List.find?_cons_of_neg (ThreadId × ThreadRec) (fun e => e.1 == tid) _ _ (by simp [hb]),
          @List.find?_cons_of_neg (ThreadId × ThreadRec) (fun e => e.1 == tid) hd tl (by simp [hb])]
      exact ih

/-- getThread after patchThread on the same id applies the patch to the
looked-up row. -/
theorem getThread_patchThread (db : DB) (tid : ThreadId) (f : ThreadRec → ThreadRec) :
    getThread (patchThread db tid f) tid = (getThread db tid).map f := by
  unfold getThread patchThread
  exact find?_patch db.threads tid f

/-! ### C6: the association row is written iff attachments are present -/

/-- C6: running the scheduled background action appends exactly one local
messages row — carrying the thread id, the prompt as body, the caller's
user id and the attachment storage ids — when the attachment list is
non-empty, and appends nothing when it is empty. -/
theorem action_association_row_iff_attachments
    (db : DB) (task : SendTask) (agentNew : String) (now : Nat) (t : ThreadRec)
    (ht : getThread db task.threadId = some t)
    (hp : 1 ≤ task.prompt.length)
    (hm : recognizedModelIds.contains task.modelId = true) :
    ∃ db', createAgentThreadAndSaveMessage db task agentNew now = .ok db' ∧
      db'.messages = db.messages ++
        (if task.attachmentIds.isEmpty then []
         else [⟨task.threadId, task.prompt, task.userId, task.attachmentIds, now⟩]) := by
  have hm' : task.modelId ∈ recognizedModelIds := by simpa using hm
  have hstep : createAgentThreadAndSaveMessage db task agentNew now = .ok (
      let db1 := if strFalsy t.agentThreadId then
          patchThread db task.threadId (fun tr => { tr with agentThreadId := some agentNew })
        else db
      if task.attachmentIds.isEmpty then db1
      else { db1 with messages := db1.messages ++
              [⟨task.threadId, task.prompt, task.userId, task.attachmentIds, now⟩] }) := by
    simp [createAgentThreadAndSaveMessage, parsePrompt, parseModelId,
          Bind.bind, Except.bind, hp, hm', ht]
  refine ⟨_, hstep, ?_⟩
  by_cases h1 : strFalsy t.agentThreadId <;>
    by_cases h2 : task.attachmentIds.isEmpty = true <;>
      simp [h1, h2, patchThread]

/-- Witness for action_association_row_iff_attachments: a send with one
attachment inserts the association row. -/
theorem action_association_row_iff_attachments_witness :
    ∃ db', createAgentThreadAndSaveMessage exDb ⟨1, "Check this", "alice", "gpt-4.1-nano", [7]⟩ "agent-1" 500 = .ok db' ∧
      db'.messages = exDb.messages ++
        (if ([7] : List StorageId).isEmpty then []
         else [⟨1, "Check this", "alice", [7], 500⟩]) :=
  action_association_row_iff_attachments exDb ⟨1, "Check this", "alice", "gpt-4.1-nano", [7]⟩
    "agent-1" 500 exThread (by decide) (by decide) (by decide)

/-! ### C7: the agent-thread linkage is lazy and never reassigned -/

/-- C7: createThread inserts the new thread with no agentThreadId, and
running the background send action against a thread whose agentThreadId
is already set (to a non-empty id, the only kind the agent library
produces) leaves the threads table — and so the linkage — completely
unchanged. -/
theorem agentThreadId_lazy_and_stable
    (db : DB) (u uuid : String) (now : Nat) (newId : ThreadId)
    (task : SendTask) (t : ThreadRec) (s agentNew : String)
    (hfresh : getThread db newId = none)
    (ht : getThread db task.threadId = some t)
    (hset : t.agentThreadId = some s) (hs : s ≠ "")
    (hp : 1 ≤ task.prompt.length)
    (hm : recognizedModelIds.contains task.modelId = true) :
    (∃ db2, createThread db (some u) now newId uuid = .ok (db2, newId) ∧
       getThread db2 newId =
         some ⟨u, some uuid, none, some "New Chat", some "active", now, now⟩) ∧
    (∃ db', createAgentThreadAndSaveMessage db task agentNew now = .ok db' ∧
       db'.threads = db.threads) := by
  have hm' : task.modelId ∈ recognizedModelIds := by simpa using hm
  constructor
  · refine ⟨_, rfl, ?_⟩
    unfold getThread at hfresh ⊢
    have hfind : db.threads.find? (fun e => e.1 == newId) = none := by
      cases hf : db.threads.find? (fun e => e.1 == newId) with
      | none => rfl
      | some e => rw [hf] at hfresh; simp at hfresh
    simp [List.find?_append, hfind]
  · have hfalsy : strFalsy t.agentThreadId = false := by
      rw [hset]
      show s.isEmpty = false
      cases hemp : s.isEmpty with
      | false => rfl
      | true => exact absurd ((String.isEmpty_iff s).mp hemp) hs
    have hstep : createAgentThreadAndSaveMessage db task agentNew now = .ok (
        if task.attachmentIds.isEmpty then db
        else { db with messages := db.messages ++
                [⟨task.threadId, task.prompt, task.userId, task.attachmentIds, now⟩] }) := by
      simp [createAgentThreadAndSaveMessage, parsePrompt, parseModelId,
            Bind.bind, Except.bind, hp, hm', ht, hfalsy]
    refine ⟨_, hstep, ?_⟩
    by_cases h2 : task.attachmentIds.isEmpty = true <;> simp [h2]

/-- Witness for agentThreadId_lazy_and_stable at a concrete state whose
thread already carries the linkage "agent-1". -/
theorem agentThreadId_lazy_and_stable_witness :
    (∃ db2, createThread exDbLinked (some "alice") 700 2 "uuid-2" = .ok (db2, 2) ∧
       getThread db2 2 =
         some ⟨"alice", some "uuid-2", none, some "New Chat", some "active", 700, 700⟩) ∧
    (∃ db', createAgentThreadAndSaveMessage exDbLinked ⟨1, "Hi", "alice", "gpt-4.1-nano", []⟩ "agent-2" 700 = .ok db' ∧
       db'.threads = exDbLinked.threads) :=
  agentThreadId_lazy_and_stable exDbLinked "alice" "uuid-2" 700 2
    ⟨1, "Hi", "alice", "gpt-4.1-nano", []⟩ exThreadLinked "agent-1" "agent-2"
    (by decide) (by decide) (by decide) (by decide) (by decide) (by decide)

/-! ### C9: getThreadByUuid is total and scoped to the caller -/

/-- The first thread row owned by the caller that carries the uuid,
stated as a single scan of the table. -/
def ownedUuidLookup (db : DB) (me uuid : String) : Option ThreadRec :=
  (db.threads.find? (fun e => e.2.userId == me && e.2.uuid == some uuid)).map (·.2)

/-- C9: for an authenticated caller the query never throws: it returns
exactly the first of the caller's own threads carrying the uuid, and
whatever it returns is owned by the caller — a uuid that belongs only to
another user's thread therefore yields null, because only the caller's
threads are scanned. -/
theorem getThreadByUuid_never_throws (db : DB) (me u : String) :
    getThreadByUuid db (some me) u = .ok (ownedUuidLookup db me u) ∧
    ∀ t, ownedUuidLookup db me u = some t → t.userId = me ∧ t.uuid = some u := by
  constructor
  · unfold getThreadByUuid ownedUuidLookup getUserId
    simp only [Bind.bind, Except.bind]
    rw [List.find?_filter]
    have hpred : (fun (e : ThreadId × ThreadRec) =>
        decide ((e.2.userId == me) = true ∧ (e.2.uuid == some u) = true))
        = (fun (e : ThreadId × ThreadRec) => e.2.userId == me && e.2.uuid == some u) := by
      funext e
      by_cases h1 : (e.2.userId == me) = true <;>
        by_cases h2 : (e.2.uuid == some u) = true <;> simp [h1, h2]
    rw [hpred]
    cases hf : db.threads.find? (fun e => e.2.userId == me && e.2.uuid == some u) with
    | none => rfl
    | some e =>
      have hq := List.find?_some hf
      rw [Bool.and_eq_true, beq_iff_eq, beq_iff_eq] at hq
      simp [hq.1]
  · intro t htt
    unfold ownedUuidLookup at htt
    rcases Option.map_eq_some'.mp htt with ⟨e, hf, rfl⟩
    have hq := List.find?_some hf
    rw [Bool.and_eq_true, beq_iff_eq, beq_iff_eq] at hq
    exact hq

/-- Witness for getThreadByUuid_never_throws: alice resolves her own
uuid, and the returned thread is hers. -/
theorem getThreadByUuid_never_throws_witness :
    getThreadByUuid exDb (some "alice") "uuid-1" = .ok (ownedUuidLookup exDb "alice" "uuid-1") ∧
    (exThread.userId = "alice" ∧ exThread.uuid = some "uuid-1") :=
  ⟨(getThreadByUuid_never_throws exDb "alice" "uuid-1").1,
   (getThreadByUuid_never_throws exDb "alice" "uuid-1").2 exThread (by decide)⟩

/-! ### C10: stored titles are capped at 50 characters -/

/-- C10: both title-writing paths — generateThreadTitle and the
first-message branch of sendMessageAndUpdateThread — store mkTitle of
the source message, and mkTitle caps the length at 50: a source longer
than 50 characters becomes its first 47 characters plus "..." (length
exactly 50); otherwise the source is stored unchanged. -/
theorem thread_titles_capped_at_50
    (db : DB) (u : String) (tid : ThreadId) (t : ThreadRec)
    (msg p m : String) (ids : List StorageId) (now : Nat)
    (ht : getThread db tid = some t) (hu : t.userId = u)
    (hp : 1 ≤ p.length) (hm : recognizedModelIds.contains m = true) :
    (∃ db', generateThreadTitle db (some u) tid msg now = .ok db' ∧
       getThread db' tid = some { t with title := some (mkTitle msg), updatedAt := now }) ∧
    (∃ db', sendMessageAndUpdateThread db (some u) tid p true m ids now = .ok db' ∧
       getThread db' tid = some { t with title := some (mkTitle p), updatedAt := now }) ∧
    (∀ s : String, (mkTitle s).length ≤ 50 ∧
       (50 < s.length → mkTitle s = jsSubstring47 s ++ "..." ∧ (mkTitle s).length = 50) ∧
       (s.length ≤ 50 → mkTitle s = s)) := by
  have hm' : m ∈ recognizedModelIds := by simpa using hm
  refine ⟨?_, ?_, ?_⟩
  · have hstep : generateThreadTitle db (some u) tid msg now = .ok
        (patchThread db tid (fun tr => { tr with title := some (mkTitle msg), updatedAt := now })) := by
      simp [generateThreadTitle, getUserId, Bind.bind, Except.bind, ht, hu]
    refine ⟨_, hstep, ?_⟩
    rw [getThread_patchThread, ht]
    rfl
  · have hstep : sendMessageAndUpdateThread db (some u) tid p true m ids now = .ok
        (patchThread { db with scheduled := db.scheduled ++ [⟨tid, p, u, m, ids⟩] } tid
          (fun tr => { tr with title := some (mkTitle p), updatedAt := now })) := by
      simp [sendMessageAndUpdateThread, parsePrompt, parseModelId, authorizeThreadAccess,
            getUserId, Bind.bind, Except.bind, hp, hm', ht, hu]
    refine ⟨_, hstep, ?_⟩
    rw [getThread_patchThread]
    have hsame : getThread { db with scheduled := db.scheduled ++ [⟨tid, p, u, m, ids⟩] } tid = some t := ht
    rw [hsame]
    rfl
  · intro s
    have hdata : s.length = s.data.length := rfl
    have h47 : 50 < s.length → (jsSubstring47 s).length = 47 := by
      intro h
      show (s.data.take 47).length = 47
      rw [List.length_take]
      exact Nat.min_eq_left (by omega)
    have hdots : ("..." : String).length = 3 := rfl
    refine ⟨?_, ?_, ?_⟩
    · unfold mkTitle
      by_cases h : 50 < s.length
      · rw [if_pos h, String.length_append, h47 h, hdots]
      · rw [if_neg h]
        omega
    · intro h
      unfold mkTitle
      rw [if_pos h]
      exact ⟨rfl, by rw [String.length_append, h47 h, hdots]⟩
    · intro h
      unfold mkTitle
      rw [if_neg (by omega)]

/-- Witness for thread_titles_capped_at_50 at a concrete state. -/
theorem thread_titles_capped_at_50_witness :
    (∃ db', generateThreadTitle exDb (some "alice") 1 "Hi" 900 = .ok db' ∧
       getThread db' 1 = some { exThread with title := some (mkTitle "Hi"), updatedAt := 900 }) ∧
    (∃ db', sendMessageAndUpdateThread exDb (some "alice") 1 "Hello" true "gpt-4.1-nano" [] 900 = .ok db' ∧
       getThread db' 1 = some { exThread with title := some (mkTitle "Hello"), updatedAt := 900 }) ∧
    (∀ s : String, (mkTitle s).length ≤ 50 ∧
       (50 < s.length → mkTitle s = jsSubstring47 s ++ "..." ∧ (mkTitle s).length = 50) ∧
       (s.length ≤ 50 → mkTitle s = s)) :=
  thread_titles_capped_at_50 exDb "alice" 1 exThread "Hi" "Hello" "gpt-4.1-nano" [] 900
    (by decide) rfl (by decide) (by decide)

/-! ### Stable-sort lemmas for the timestamp fallback -/

/-- Membership is preserved by key-ordered insertion. -/
theorem mem_insertByKey {α : Type} (k : α → Nat) (x : α) (l : List α) (a : α) :
    a ∈ insertByKey k x l ↔ a = x ∨ a ∈ l := by
  induction l with
  | nil => simp [insertByKey]
  | cons y ys ih =>
    unfold insertByKey
    by_cases h : k x ≤ k y
    · rw [if_pos h]
      simp [List.mem_cons]
    · rw [if_neg h]
      simp [List.mem_cons, ih]
      tauto

/-- Key-ordered insertion preserves sortedness by the key. -/
theorem pairwise_insertByKey {α : Type} (k : α → Nat) (x : α) (l : List α)
    (h : l.Pairwise (fun a b => k a ≤ k b)) :
    (insertByKey k x l).Pairwise (fun a b => k a ≤ k b) := by
  induction l with
  | nil => simp [insertByKey]
  | cons y ys ih =>
    rw [List.pairwise_cons] at h
    obtain ⟨hy, hys⟩ := h
    unfold insertByKey
    by_cases hxy : k x ≤ k y
    · rw [if_pos hxy, List.pairwise_cons]
      constructor
      · intro a ha
        rcases List.mem_cons.mp ha with rfl | ha2
        · exact hxy
        · exact le_trans hxy (hy a ha2)
      · exact List.pairwise_cons.mpr ⟨hy, hys⟩
    · rw [if_neg hxy, List.pairwise_cons]
      refine ⟨?_, ih hys⟩
      intro a ha
      rcases (mem_insertByKey k x ys a).mp ha with rfl | ha2
      · exact le_of_not_le hxy
      · exact hy a ha2

/-- The sort is a permutation as far as membership is concerned. -/
theorem mem_sortByKey {α : Type} (k : α → Nat) (l : List α) (a : α) :
    a ∈ sortByKey k l ↔ a ∈ l := by
  induction l with
  | nil => simp [sortByKey]
  | cons x xs ih => simp [sortByKey, mem_insertByKey, ih]

/-- The sort output is ascending in the key. -/
theorem pairwise_sortByKey {α : Type} (k : α → Nat) (l : List α) :
    (sortByKey k l).Pairwise (fun a b => k a ≤ k b) := by
  induction l with
  | nil => simp [sortByKey]
  | cons x xs ih => exact pairwise_insertByKey k x _ ih

/-- The sort output is empty only for empty input. -/
theorem sortByKey_eq_nil_iff {α : Type} (k : α → Nat) (l : List α) :
    sortByKey k l = [] ↔ l = [] := by
  constructor
  · intro h
    cases l with
    | nil => rfl
    | cons x xs =>
      exfalso
      have hx : x ∈ sortByKey k (x :: xs) := (mem_sortByKey k _ x).mpr (by simp)
      rw [h] at hx
      simp at hx
  · intro h
    subst h
    rfl

/-- The head of the sorted list minimizes the key over the input. -/
theorem head_sortByKey_min {α : Type} (k : α → Nat) (l : List α) (c : α) (rest : List α)
    (h : sortByKey k l = c :: rest) :
    c ∈ l ∧ ∀ a ∈ l, k c ≤ k a := by
  constructor
  · have hc : c ∈ sortByKey k l := by
      rw [h]
      simp
    exact (mem_sortByKey k l c).mp hc
  · intro a ha
    have ha2 : a ∈ sortByKey k l := (mem_sortByKey k l a).mpr ha
    rw [h] at ha2
    rcases List.mem_cons.mp ha2 with rfl | ha3
    · exact le_rfl
    · have hp := pairwise_sortByKey k l
      rw [h, List.pairwise_cons] at hp
      exact hp.1 a ha3

/-! ### C3: body-based matching has no exact-over-containment priority -/

/-- C3 (counterexample): with a containment-only record listed before an
exactly-equal record, the single .find pass selects the containment-only
record, so exact equality is not given priority over containment as the
claim requires. -/
theorem exact_match_not_prioritized :
    extractAttachments (some [⟨"H", [10], 1000⟩, ⟨"Hi", [20], 1000⟩]) ⟨"user", "Hi", 1000⟩ = [10] ∧
    (⟨"Hi", [20], 1000⟩ : AttachmentRec).messageBody = "Hi" ∧
    (⟨"H", [10], 1000⟩ : AttachmentRec).messageBody ≠ "Hi" ∧
    jsIncludes "Hi" "H" = true ∧
    extractAttachments (some [⟨"H", [10], 1000⟩, ⟨"Hi", [20], 1000⟩]) ⟨"user", "Hi", 1000⟩ ≠ [20] := by
  decide

/-- C3 (amended): for a user message with non-empty content the matcher
returns the attachments of the first record in list order whose body
equals the content or is contained in it — one pass testing an OR of the
two body rules, with no priority of exact equality over containment, and
containment only in the direction "message content contains the stored
body" — and the timestamp fallback runs only when no record
body-matches. -/
theorem first_body_match_wins (atts : List AttachmentRec) (m : UIMessage)
    (r : AttachmentRec) (hrole : m.role = "user") (hc : ¬ m.content = "")
    (hf : atts.find? (bodyMatch m.content) = some r) :
    extractAttachments (some atts) m = r.attachments := by
  unfold extractAttachments
  simp [hrole, hc, hf]

/-- Witness for first_body_match_wins. -/
theorem first_body_match_wins_witness :
    extractAttachments (some [⟨"Check this", [7], 1000⟩]) ⟨"user", "Check this", 1200⟩ =
      (⟨"Check this", [7], 1000⟩ : AttachmentRec).attachments :=
  first_body_match_wins [⟨"Check this", [7], 1000⟩] ⟨"user", "Check this", 1200⟩
    ⟨"Check this", [7], 1000⟩ rfl (by decide) (by decide)

/-! ### C4: the timestamp fallback takes the nearest record within 5 s -/

/-- C4: for a user message with non-empty content, a truthy creation time
and no body-based match, the matcher sorts the records by absolute
creation-time distance and takes the head: some record minimizing the
distance over the whole list is selected, its attachments are returned
exactly when its distance is strictly below 5000 ms, and otherwise the
message renders with zero attachments. -/
theorem timestamp_fallback_nearest (atts : List AttachmentRec) (m : UIMessage)
    (hrole : m.role = "user") (hc : ¬ m.content = "") (hct : m.creationTime ≠ 0)
    (hnb : atts.find? (bodyMatch m.content) = none) (hne : atts ≠ []) :
    ∃ closest ∈ atts,
      (∀ a ∈ atts,
        absDiff closest.creationTime m.creationTime ≤ absDiff a.creationTime m.creationTime) ∧
      extractAttachments (some atts) m =
        (if absDiff closest.creationTime m.creationTime < 5000 then closest.attachments else []) := by
  cases hs : sortByKey (fun a => absDiff a.creationTime m.creationTime) atts with
  | nil => exact absurd ((sortByKey_eq_nil_iff _ atts).mp hs) hne
  | cons c rest =>
    obtain ⟨hcmem, hcmin⟩ := head_sortByKey_min _ atts c rest hs
    refine ⟨c, hcmem, hcmin, ?_⟩
    unfold extractAttachments
    simp [hrole, hc, hnb, hct, hs]

/-- Witness for timestamp_fallback_nearest: the record 2000 ms away wins
over the one 6000 ms away and is within tolerance. -/
theorem timestamp_fallback_nearest_witness :
    ∃ closest ∈ [(⟨"aaa", [1], 4000⟩ : AttachmentRec), ⟨"bbb", [2], 8000⟩],
      (∀ a ∈ [(⟨"aaa", [1], 4000⟩ : AttachmentRec), ⟨"bbb", [2], 8000⟩],
        absDiff closest.creationTime 10000 ≤ absDiff a.creationTime 10000) ∧
      extractAttachments (some [⟨"aaa", [1], 4000⟩, ⟨"bbb", [2], 8000⟩]) ⟨"user", "xyz", 10000⟩ =
        (if absDiff closest.creationTime 10000 < 5000 then closest.attachments else []) :=
  timestamp_fallback_nearest [⟨"aaa", [1], 4000⟩, ⟨"bbb", [2], 8000⟩] ⟨"user", "xyz", 10000⟩
    rfl (by decide) (by decide) (by decide) (by decide)

/-! ### C8: the time-bucket grouping is a partition -/

/-- The bucket index is one of 0, 1, 2, 3. -/
theorem bucketIndex_cases (T : Int) (u : Nat) :
    bucketIndex T u = 0 ∨ bucketIndex T u = 1 ∨ bucketIndex T u = 2 ∨ bucketIndex T u = 3 := by
  unfold bucketIndex
  split_ifs <;> simp

/-- One step of the fold, characterized by the bucket index of the
thread. -/
theorem groupStep_eq (T : Int) (g : GroupedThreads) (th : SThread) :
    groupStep T g th =
      if bucketIndex T th.updatedAt = 0 then { g with today := g.today ++ [th] }
      else if bucketIndex T th.updatedAt = 1 then { g with last7Days := g.last7Days ++ [th] }
      else if bucketIndex T th.updatedAt = 2 then { g with last30Days := g.last30Days ++ [th] }
      else { g with older := g.older ++ [th] } := by
  unfold groupStep bucketIndex
  by_cases h1 : (th.updatedAt : Int) ≥ T
  · rw [if_pos h1, if_pos h1]
    simp
  · rw [if_neg h1, if_neg h1]
    by_cases h2 : (th.updatedAt : Int) ≥ T - 7 * msPerDay
    · rw [if_pos h2, if_pos h2]
      simp
    · rw [if_neg h2, if_neg h2]
      by_cases h3 : (th.updatedAt : Int) ≥ T - 30 * msPerDay
      · rw [if_pos h3, if_pos h3]
        simp
      · rw [if_neg h3, if_neg h3]
        simp

/-- The fold underlying groupThreadsByTime appends, to each starting
bucket, exactly the input threads whose bucket index selects it. -/
theorem foldl_groupStep (T : Int) (ts : List SThread) (g : GroupedThreads) :
    ts.foldl (groupStep T) g =
      ⟨g.today ++ ts.filter (fun th => bucketIndex T th.updatedAt == 0),
       g.last7Days ++ ts.filter (fun th => bucketIndex T th.updatedAt == 1),
       g.last30Days ++ ts.filter (fun th => bucketIndex T th.updatedAt == 2),
       g.older ++ ts.filter (fun th => bucketIndex T th.updatedAt == 3)⟩ := by
  induction ts generalizing g with
  | nil => simp
  | cons th ts ih =>
    rw [List.foldl_cons, ih, groupStep_eq]
    rcases bucketIndex_cases T th.updatedAt with h | h | h | h <;>
      simp [h, List.filter_cons]

/-- The four bucket filters account for every input thread exactly
once. -/
theorem filter_buckets_length (T : Int) (ts : List SThread) :
    (ts.filter (fun th => bucketIndex T th.updatedAt == 0)).length +
    (ts.filter (fun th => bucketIndex T th.updatedAt == 1)).length +
    (ts.filter (fun th => bucketIndex T th.updatedAt == 2)).length +
    (ts.filter (fun th => bucketIndex T th.updatedAt == 3)).length = ts.length := by
  induction ts with
  | nil => rfl
  | cons th ts ih =>
    rcases bucketIndex_cases T th.updatedAt with h | h | h | h <;>
      simp [List.filter_cons, h] <;> omega

/-- C8: for a fixed reference anchor the grouping is the quadruple of
order-preserving filters by bucket index, so it is a deterministic
function of the input in which each bucket keeps the input's relative
order; the bucket sizes sum to the input length (no thread omitted or
duplicated); and an input thread lies in a bucket exactly when its
bucket index selects that bucket, hence in exactly one bucket. -/
theorem groupThreadsByTime_partitions (T : Int) (ts : List SThread) :
    groupThreadsByTime T ts =
      ⟨ts.filter (fun th => bucketIndex T th.updatedAt == 0),
       ts.filter (fun th => bucketIndex T th.updatedAt == 1),
       ts.filter (fun th => bucketIndex T th.updatedAt == 2),
       ts.filter (fun th => bucketIndex T th.updatedAt == 3)⟩ ∧
    ((ts.filter (fun th => bucketIndex T th.updatedAt == 0)).length +
     (ts.filter (fun th => bucketIndex T th.updatedAt == 1)).length +
     (ts.filter (fun th => bucketIndex T th.updatedAt == 2)).length +
     (ts.filter (fun th => bucketIndex T th.updatedAt == 3)).length = ts.length) ∧
    (∀ th ∈ ts, ∀ i : Nat,
      th ∈ (groupThreadsByTime T ts).bucket i ↔ bucketIndex T th.updatedAt = i) := by
  have hmain : groupThreadsByTime T ts =
      ⟨ts.filter (fun th => bucketIndex T th.updatedAt == 0),
       ts.filter (fun th => bucketIndex T th.updatedAt == 1),
       ts.filter (fun th => bucketIndex T th.updatedAt == 2),
       ts.filter (fun th => bucketIndex T th.updatedAt == 3)⟩ := by
    unfold groupThreadsByTime
    rw [foldl_groupStep]
    simp
  refine ⟨hmain, ?_, ?_⟩
  · exact filter_buckets_length T ts
  · intro th hth i
    rw [hmain]
    have hb4 := bucketIndex_cases T th.updatedAt
    rcases i with _ | _ | _ | _ | i
    · simp [GroupedThreads.bucket, List.mem_filter, hth]
    · simp [GroupedThreads.bucket, List.mem_filter, hth]
    · simp [GroupedThreads.bucket, List.mem_filter, hth]
    · simp [GroupedThreads.bucket, List.mem_filter, hth]
    · simp only [GroupedThreads.bucket, List.not_mem_nil, false_iff]
      omega

/-- A sidebar thread for the witness. -/
def exSThread : SThread := ⟨1, none, 0, 1000000⟩

/-- Witness for groupThreadsByTime_partitions: the single thread lands
in the Today bucket of a concrete grouping and nowhere else. -/
theorem groupThreadsByTime_partitions_witness :
    exSThread ∈ [exSThread] ∧
    ((exSThread ∈ (groupThreadsByTime 500000 [exSThread]).bucket 0) ↔
      bucketIndex 500000 exSThread.updatedAt = 0) :=
  ⟨by decide,
   (groupThreadsByTime_partitions 500000 [exSThread]).2.2 exSThread (by decide) 0⟩

end ChatApp
